import Mathlib

/-!
Verification of the SQL-schema generator of `hx-adl`
(`src/typescript/hx-adl/src/gen-sqlschema.ts`).

The development shallow-embeds the generator: the ADL abstract-syntax values it
consumes (scoped names, type expressions, declarations, annotations), the
type-to-column mapper (`getColumnType`, `getColumnType1`, `getForeignKeyRef`),
the dialect profiles, and the table/constraint emitter (`generateSqlSchema`).

The emitter is modelled as producing a list of `SqlChunk` values, one per
`writer.write` call of the source; `SqlChunk.render` reproduces the exact text
written for each chunk, so the generated file is the concatenation of the
rendered chunks in list order.  Recursive alias/newtype expansion in
`getColumnType1` is modelled with an explicit fuel parameter (the source
recurses without any bound); `none` means the recursion did not complete
within the given fuel.

Helpers that live in parts of the repository not available here (`util.ts`,
the generated ADL runtime) are modelled from the specification; their doc
comments say so explicitly.
-/

set_option maxRecDepth 4096

namespace SqlSchema

/-- ScopedName from sys.adlast: identifies a declaration by (module, name). -/
structure ScopedName where
  moduleName : String
  name : String
deriving DecidableEq, Repr

/-- Modelled from the spec (missing `util.ts`): builds a `ScopedName`;
mirrors `scopedName(module, name)`. -/
def scopedName (moduleName name : String) : ScopedName :=
  ⟨moduleName, name⟩

/-- Modelled from the spec (missing `util.ts`): structural equality of scoped
names, as used by `scopedNamesEqual` ("equality is structural"). -/
def scopedNamesEqual (a b : ScopedName) : Bool :=
  a == b

/-- Head of a type expression: a primitive kind, a type parameter, or a
reference to a declaration (sys.adlast `TypeRef`). -/
inductive TypeRef where
  | primitive (p : String)
  | typeParam (p : String)
  | reference (sn : ScopedName)
deriving DecidableEq, Repr

/-- Type expression: a head reference plus an ordered list of type-parameter
expressions (sys.adlast `TypeExpr`). -/
inductive TypeExpr where
  | mk (typeRef : TypeRef) (parameters : List TypeExpr)

/-- Raw type-parameter list of a type expression, as accessed by
`typeExpr.parameters` in the source. -/
def TypeExpr.parameters : TypeExpr → List TypeExpr
  | .mk _ ps => ps

/-- Head reference of a type expression. -/
def TypeExpr.typeRef : TypeExpr → TypeRef
  | .mk r _ => r

/-- Annotation values as far as the generator inspects them.  The source
receives untyped JSON; the generator only ever reads the `DbTable` object
fields and the `DbColumnName` string, so the embedding models exactly these
shapes plus `null` and an opaque catch-all. -/
structure DbTableAnn where
  tableName : Option String := none
  withIdPrimaryKey : Bool := false
  withPrimaryKey : List String := []
  indexes : List (List String) := []
  uniquenessConstraints : List (List String) := []
  extraSql : List String := []
deriving DecidableEq, Repr

/-- Value attached to an annotation key. -/
inductive AnnValue where
  | table (t : DbTableAnn)
  | str (s : String)
  | null
  | other
deriving DecidableEq, Repr

/-- Field of a struct or union declaration. -/
structure Field where
  name : String
  typeExpr : TypeExpr
  annotations : List (ScopedName × AnnValue) := []

/-- Declaration body: struct, union, newtype or type alias (sys.adlast
`DeclType`). -/
inductive DeclType where
  | struct_ (typeParams : List String) (fields : List Field)
  | union_ (typeParams : List String) (fields : List Field)
  | newtype_ (typeParams : List String) (typeExpr : TypeExpr)
  | type_ (typeParams : List String) (typeExpr : TypeExpr)

/-- Named declaration with its annotation mapping. -/
structure Decl where
  name : String
  type_ : DeclType
  annotations : List (ScopedName × AnnValue) := []

/-- Declaration together with its owning module (sys.adlast `ScopedDecl`). -/
structure ScopedDecl where
  moduleName : String
  decl : Decl

/-- Resolver: total lookup from a scoped name to its declaration ("a pure
function from ScopedName to its owning Declaration; total over the loaded
graph"). -/
def Resolver : Type :=
  ScopedName → ScopedDecl

/-- Modelled from the spec (missing `util.ts`): looks an annotation key up in
a declaration's annotation mapping; mirrors `getAnnotation(anns, key)`. -/
def getAnnot (anns : List (ScopedName × AnnValue)) (key : ScopedName) : Option AnnValue :=
  (anns.find? (fun p => scopedNamesEqual p.1 key)).map (fun p => p.2)

/-- Modelled from the spec (missing `util.ts`): decoded shape of a type
expression — `Primitive(kind)`, `NullableWrapper(inner)` or
`Reference(scopedName, typeParameters)` (spec 4.1).  Parameters are kept as
raw expressions and decoded on demand; this is extensionally the decoding the
callers in `gen-sqlschema.ts` perform (`dtype.kind`, `dtype.refScopedName`,
`dtype.parameters[0].kind`). -/
inductive DecodedTypeExpr where
  | Primitive (kind : String)
  | Nullable (inner : TypeExpr)
  | Reference (refScopedName : ScopedName) (parameters : List TypeExpr)

/-- Kind tag of a decoded type expression, as consumed by
`dbProfile.primColumnType(dtype.kind)`. -/
def DecodedTypeExpr.kind : DecodedTypeExpr → String
  | .Primitive k => k
  | .Nullable _ => "Nullable"
  | .Reference _ _ => "Reference"

/-- Modelled from the spec (missing `util.ts`): classifies a type expression
into the decoded shapes of spec 4.1.  The dedicated nullable wrapper is the
primitive `Nullable` applied to one parameter; a reference stays a
`Reference` (the `Maybe` spelling is collapsed with `Nullable` by the caller
`getColumnType`, which tests both shapes). -/
def decodeTypeExpr : TypeExpr → DecodedTypeExpr
  | .mk (.primitive "Nullable") [t] => .Nullable t
  | .mk (.primitive p) _ => .Primitive p
  | .mk (.typeParam p) _ => .Primitive p
  | .mk (.reference sn) ps => .Reference sn ps

mutual
/-- Modelled from the spec (missing `util.ts`): positional substitution of
type parameters into a type expression (spec 4.2: "substitute type parameters
positionally into the Declaration's underlying type expression"). -/
def substTypeParams (bs : List (String × TypeExpr)) : TypeExpr → TypeExpr
  | .mk (.typeParam p) ps =>
    (match bs.lookup p with
     | some t => t
     | none => .mk (.typeParam p) (substTypeParamsList bs ps))
  | .mk r ps => .mk r (substTypeParamsList bs ps)

/-- Pointwise `substTypeParams` over a parameter list. -/
def substTypeParamsList (bs : List (String × TypeExpr)) : List TypeExpr → List TypeExpr
  | [] => []
  | t :: ts => substTypeParams bs t :: substTypeParamsList bs ts
end

/-- Modelled from the spec (missing `util.ts`): expands a reference to a type
alias by substituting the alias's type parameters with the reference's
arguments; any other expression is "not expandable" (`null` in the source,
`none` here).  Spec 4.2. -/
def expandTypeAlias (resolver : Resolver) : TypeExpr → Option TypeExpr
  | .mk (.reference sn) ps =>
    match (resolver sn).decl.type_ with
    | .type_ tps body => some (substTypeParams (tps.zip ps) body)
    | _ => none
  | _ => none

/-- Modelled from the spec (missing `util.ts`): expands a reference to a
newtype to the newtype's underlying type, substituting type parameters
positionally; spec 4.2. -/
def expandNewType (resolver : Resolver) : TypeExpr → Option TypeExpr
  | .mk (.reference sn) ps =>
    match (resolver sn).decl.type_ with
    | .newtype_ tps body => some (substTypeParams (tps.zip ps) body)
    | _ => none
  | _ => none

/-- Modelled from the spec (missing generated runtime `utils.ts`): a union is
an enum when every variant carries no payload, i.e. every field's type is the
`Void` primitive. -/
def isEnum (fields : List Field) : Bool :=
  fields.all (fun f =>
    match f.typeExpr with
    | .mk (.primitive "Void") _ => true
    | _ => false)

/-- True when a declaration body is a union all of whose variants are
payload-free, mirroring `sdecl.decl.type_.kind == 'union_' &&
isEnum(sdecl.decl.type_.value)`. -/
def isUnionEnum : DeclType → Bool
  | .union_ _ fields => isEnum fields
  | _ => false

/-- Dialect profile: customizations for the db mapping (`DbProfile` in the
source). -/
structure DbProfile where
  idColumnType : String
  enumColumnType : String
  primColumnType : String → String

/-- Postgres profile (`postgresDbProfile`): primitive spellings with `json`
as the opaque fallback. -/
def postgresDbProfile : DbProfile :=
  { idColumnType := "text"
    enumColumnType := "text"
    primColumnType := fun ptype =>
      match ptype with
      | "String" => "text"
      | "Bool" => "boolean"
      | "Json" => "json"
      | "Int8" => "smallint"
      | "Int16" => "smallint"
      | "Int32" => "integer"
      | "Int64" => "bigint"
      | "Word8" => "smallint"
      | "Word16" => "smallint"
      | "Word32" => "integer"
      | "Word64" => "bigint"
      | "Float" => "real"
      | "Double" => "double precision"
      | _ => "json" }

/-- Postgres model-version-2 profile (`postgres2DbProfile`): identical to
`postgresDbProfile` except that the opaque spelling is `jsonb`. -/
def postgres2DbProfile : DbProfile :=
  { idColumnType := "text"
    enumColumnType := "text"
    primColumnType := fun ptype =>
      match ptype with
      | "String" => "text"
      | "Bool" => "boolean"
      | "Json" => "jsonb"
      | "Int8" => "smallint"
      | "Int16" => "smallint"
      | "Int32" => "integer"
      | "Int64" => "bigint"
      | "Word8" => "smallint"
      | "Word16" => "smallint"
      | "Word32" => "integer"
      | "Word64" => "bigint"
      | "Float" => "real"
      | "Double" => "double precision"
      | _ => "jsonb" }

/-- Microsoft SQL-server profile (`mssql2DbProfile`): own primitive table (no
`Json` row) with `nvarchar(max)` as the opaque fallback. -/
def mssql2DbProfile : DbProfile :=
  { idColumnType := "nvchar(64)"
    enumColumnType := "nvchar(64)"
    primColumnType := fun ptype =>
      match ptype with
      | "String" => "nvarchar(max)"
      | "Int8" => "smallint"
      | "Int16" => "smallint"
      | "Int32" => "int"
      | "Int64" => "bigint"
      | "Word8" => "smallint"
      | "Word16" => "smallint"
      | "Word32" => "int"
      | "Word64" => "bigint"
      | "Float" => "float(24)"
      | "Double" => "float(53)"
      | "Bool" => "bit"
      | _ => "nvarchar(max)" }

/-- Distinguished scoped name `sys.types.Maybe`. -/
def MAYBE : ScopedName := scopedName "sys.types" "Maybe"

/-- Distinguished scoped name `common.db.DbTable` (the table annotation). -/
def DB_TABLE : ScopedName := scopedName "common.db" "DbTable"

/-- Distinguished scoped name `common.db.DbColumnName`. -/
def DB_COLUMN_NAME : ScopedName := scopedName "common.db" "DbColumnName"

/-- Distinguished scoped name `common.db.DbKey`. -/
def DB_KEY : ScopedName := scopedName "common.db" "DbKey"

/-- Distinguished scoped name `common.Instant`. -/
def INSTANT : ScopedName := scopedName "common" "Instant"

/-- Distinguished scoped name `common.LocalDate`. -/
def LOCAL_DATE : ScopedName := scopedName "common" "LocalDate"

/-- Distinguished scoped name `common.LocalDateTime`. -/
def LOCAL_DATETIME : ScopedName := scopedName "common" "LocalDateTime"

/-- Modelled from the spec (external `change-case` library): converts an
identifier to "a lowercase, underscore-separated form" (spec 4.4), inserting
an underscore before every non-initial uppercase letter. -/
def snakeCaseChars : Bool → List Char → List Char
  | _, [] => []
  | first, c :: cs =>
    if c.isUpper && !first then
      '_' :: c.toLower :: snakeCaseChars false cs
    else
      c.toLower :: snakeCaseChars false cs

/-- Modelled from the spec (external `change-case` library): see
`snakeCaseChars`. -/
def snakeCase (s : String) : String :=
  ⟨snakeCaseChars true s.data⟩

/-- Returns the SQL name for the table (`getTableName`): the `tableName`
string of the `DbTable` annotation when present, else the snake-cased
declaration name. -/
def getTableName (scopedDecl : ScopedDecl) : String :=
  match getAnnot scopedDecl.decl.annotations DB_TABLE with
  | some (.table t) =>
    match t.tableName with
    | some n => n
    | none => snakeCase scopedDecl.decl.name
  | _ => snakeCase scopedDecl.decl.name

/-- Returns the SQL name for a column (`getColumnName`): the string value of
the `DbColumnName` annotation when present, else the snake-cased field
name. -/
def getColumnName (field : Field) : String :=
  match getAnnot field.annotations DB_COLUMN_NAME with
  | some (.str s) => s
  | _ => snakeCase field.name

/-- Foreign-key target of a column (`ColumnType.fkey` payload in the
source). -/
structure FKeyRef where
  table : String
  column : String
deriving DecidableEq, Repr

/-- Column specification (`ColumnType` in the source): SQL type text plus an
optional foreign-key target. -/
structure ColumnType where
  sqltype : String
  fkey : Option FKeyRef
deriving DecidableEq, Repr

/-- Foreign-key detection (`getForeignKeyRef`): a `Reference` to
`common.db.DbKey` whose first decoded type parameter is itself a `Reference`
yields `{table := derived table name of the referenced declaration, column :=
"id"}`; everything else yields no target.  Note the source never checks the
referenced declaration for a `DbTable` annotation. -/
def getForeignKeyRef (resolver : Resolver) (typeExpr : TypeExpr) : Option FKeyRef :=
  match decodeTypeExpr typeExpr with
  | .Reference sn ps =>
    if scopedNamesEqual sn DB_KEY then
      match ps with
      | p0 :: _ =>
        match decodeTypeExpr p0 with
        | .Reference psn _ => some ⟨getTableName (resolver psn), "id"⟩
        | _ => none
      | [] => none
    else none
  | _ => none

/-- Base-type reduction (`getColumnType1`): well-known temporal references
map to fixed spellings, enum unions map to the profile's enum column type,
newtype/alias references are expanded and recursed into, and everything else
falls through to the profile's primitive table keyed by the decoded kind tag.
The source recursion is unbounded; `fuel` makes it total, with `none` when
the recursion does not complete. -/
def getColumnType1 (resolver : Resolver) (profile : DbProfile) :
    Nat → TypeExpr → Option String
  | 0, _ => none
  | fuel + 1, typeExpr =>
    match decodeTypeExpr typeExpr with
    | .Reference sn _ =>
      let sdecl := resolver sn
      if scopedNamesEqual sn INSTANT then some "timestamp"
      else if scopedNamesEqual sn LOCAL_DATE then some "date"
      else if scopedNamesEqual sn LOCAL_DATETIME then some "timestamp"
      else if isUnionEnum sdecl.decl.type_ then some profile.enumColumnType
      else
        match (expandTypeAlias resolver typeExpr).orElse
            (fun _ => expandNewType resolver typeExpr) with
        | some typeExpr2 => getColumnType1 resolver profile fuel typeExpr2
        | none => some (profile.primColumnType "Reference")
    | dtype => some (profile.primColumnType dtype.kind)

/-- Column mapping (`getColumnType`): a `Nullable`-decoded expression or a
reference to `sys.types.Maybe` maps its first raw type parameter as the base
type (no `not null`, foreign key from the parameter); every other expression
maps itself with `" not null"` appended and the foreign key computed from the
expression. -/
def getColumnType (resolver : Resolver) (profile : DbProfile) (fuel : Nat)
    (typeExpr : TypeExpr) : Option ColumnType :=
  let dtype := decodeTypeExpr typeExpr
  let nullable : Bool :=
    match dtype with
    | .Nullable _ => true
    | .Reference sn _ => scopedNamesEqual sn MAYBE
    | _ => false
  if nullable then
    match typeExpr.parameters with
    | p0 :: _ =>
      (getColumnType1 resolver profile fuel p0).map
        (fun s => ⟨s, getForeignKeyRef resolver p0⟩)
    | [] => none
  else
    (getColumnType1 resolver profile fuel typeExpr).map
      (fun s => ⟨s ++ " not null", getForeignKeyRef resolver typeExpr⟩)

mutual
/-- Modelled from the spec (missing generated runtime `utils.ts`): renders a
type expression unscoped, e.g. `DbKey<Person>`; used only for the column
comments. -/
def typeExprToStringUnscoped : TypeExpr → String
  | .mk r ps =>
    let base :=
      match r with
      | .primitive p => p
      | .typeParam p => p
      | .reference sn => sn.name
    match ps with
    | [] => base
    | _ => base ++ "<" ++ String.intercalate "," (typeExprListStrings ps) ++ ">"

/-- Pointwise `typeExprToStringUnscoped` over a parameter list. -/
def typeExprListStrings : List TypeExpr → List String
  | [] => []
  | t :: ts => typeExprToStringUnscoped t :: typeExprListStrings ts
end

/-- Replaces the first occurrence of `pat` in a character list, like the
JavaScript `String.replace` with a string pattern. -/
def replaceFirstChars (pat rep : List Char) : List Char → List Char
  | [] => []
  | c :: cs =>
    if pat.isPrefixOf (c :: cs) then rep ++ (c :: cs).drop pat.length
    else c :: replaceFirstChars pat rep cs

/-- Replaces the first occurrence of `pat` in `s` by `rep` (JavaScript
`s.replace(pat, rep)` with a string pattern). -/
def replaceFirst (s pat rep : String) : String :=
  ⟨replaceFirstChars pat.data rep.data s.data⟩

/-- Text tweaks applied to column comments (`tweakTypeComment`): qualifies
the first `DbKey` and the first `Instant`. -/
def tweakTypeComment (comment : String) : String :=
  replaceFirst (replaceFirst comment "DbKey" "common.db.DbKey") "Instant" "common.Instant"

/-- Kernel-computable ordinal (code-unit-wise lexicographic) strict
comparison of character lists, modelling the JavaScript `<` on strings used
by the table sort comparator. -/
def charsLt : List Char → List Char → Bool
  | [], [] => false
  | [], _ :: _ => true
  | _ :: _, [] => false
  | a :: as, b :: bs => if a < b then true else if b < a then false else charsLt as bs

/-- Ordinal strict comparison of strings (JavaScript `a < b`). -/
def strLtB (a b : String) : Bool :=
  charsLt a.data b.data

/-- Table entry assembled by the `forEachDecl` loop of `generateSqlSchema`:
the declaration, its struct fields, the (non-null) `DbTable` annotation
value, and the derived table name. -/
structure DbTableEntry where
  scopedDecl : ScopedDecl
  fields : List Field
  ann : AnnValue
  name : String

/-- Dynamic field reads `t.ann['...'] || default` of the source: a
`DbTable`-shaped annotation value yields its fields, anything else yields the
defaults. -/
def annTable : AnnValue → DbTableAnn
  | .table t => t
  | _ => {}

/-- Filter of the declaration graph (`forEachDecl` body, lines 58-67): keeps
exactly the struct declarations whose `DbTable` annotation is present; a JS
loose `ann != undefined` also drops an explicit `null` value. -/
def dbTablesOf (decls : List ScopedDecl) : List DbTableEntry :=
  decls.filterMap (fun sd =>
    match sd.decl.type_ with
    | .struct_ _ fields =>
      match getAnnot sd.decl.annotations DB_TABLE with
      | some .null => none
      | some v => some ⟨sd, fields, v, getTableName sd⟩
      | none => none
    | _ => none)

/-- Sort order used by `dbTables.sort((t1, t2) => t1.name < t2.name ? -1 :
t1.name > t2.name ? 1 : 0)`: ascending by name, stable on ties. -/
def tableOrd (a b : DbTableEntry) : Prop :=
  strLtB b.name a.name = false

instance : DecidableRel tableOrd :=
  fun a b => instDecidableEqBool (strLtB b.name a.name) false

/-- Table list after filtering and the stable ascending name sort (line
68). -/
def sortedDbTables (decls : List ScopedDecl) : List DbTableEntry :=
  List.insertionSort tableOrd (dbTablesOf decls)

/-- One line of a `create table` body (`{code, comment?}` in the source). -/
structure Line where
  code : String
  comment : Option String

/-- JavaScript `padEnd(n, ' ')` on ASCII text. -/
def padEnd (s : String) (n : Nat) : String :=
  s ++ ⟨List.replicate (n - s.length) ' '⟩

/-- Rendering of the `i`-th of `total` body lines (lines 132-141): a comma on
every line but the last, then the aligned comment when present. -/
def lineText (total i : Nat) (l : Line) : String :=
  let code := if i < total - 1 then l.code ++ "," else l.code
  match l.comment with
  | some c => padEnd code 36 ++ " -- " ++ c
  | none => code

/-- Maps an ADL field name to its column name within one table
(`findColName`): the matching field's column name, else the input itself. -/
def findColName (fields : List Field) (s : String) : String :=
  match fields.find? (fun f => f.name == s) with
  | some f => getColumnName f
  | none => s

/-- Per-field column derivation for one table's field list: the field, its
column name, and its `ColumnType`; `none` as soon as one column's mapping
runs out of fuel. -/
def tableFieldData (resolver : Resolver) (profile : DbProfile) (fuel : Nat) :
    List Field → Option (List (Field × String × ColumnType))
  | [] => some []
  | f :: fs =>
    match getColumnType resolver profile fuel f.typeExpr,
        tableFieldData resolver profile fuel fs with
    | some ct, some rest => some ((f, getColumnName f, ct) :: rest)
    | _, _ => none

/-- Body line of one field: `<column> <sqltype>` plus the tweaked rendering
of the original ADL type as comment (lines 96-99). -/
def fieldLine (fd : Field × String × ColumnType) : Line :=
  ⟨fd.2.1 ++ " " ++ fd.2.2.sqltype,
   some (tweakTypeComment (typeExprToStringUnscoped fd.1.typeExpr))⟩

/-- Body lines of one table: synthetic id column first when requested, then
the field columns, then the primary-key clause (synthetic id wins over an
explicit column list; no clause otherwise). -/
def tableLines (profile : DbProfile) (t : DbTableEntry)
    (fdata : List (Field × String × ColumnType)) : List Line :=
  let ann := annTable t.ann
  (if ann.withIdPrimaryKey then
     [⟨"id " ++ profile.idColumnType ++ " not null", none⟩]
   else [])
  ++ fdata.map fieldLine
  ++ (if ann.withIdPrimaryKey then [⟨"primary key(id)", none⟩]
      else if ann.withPrimaryKey.isEmpty then []
      else [⟨"primary key(" ++
              String.intercalate "," (ann.withPrimaryKey.map (findColName t.fields)) ++
              ")", none⟩])

/-- Output chunks: one value per `writer.write` call of the source.
`SqlChunk.render` reproduces the exact text written, so the generated file is
the concatenation of the rendered chunks in list order. -/
inductive SqlChunk where
  | headerLine (text : String)
  | blankLine
  | createTableOpen (tableName : String)
  | tableLine (text : String)
  | createTableClose
  | fkConstraint (text : String)
  | indexConstraint (text : String)
  | uniqueConstraint (text : String)
  | extraLine (text : String)
deriving DecidableEq, Repr

/-- Exact text written for one chunk. -/
def SqlChunk.render : SqlChunk → String
  | .headerLine t => t ++ "\n"
  | .blankLine => "\n"
  | .createTableOpen n => "create table " ++ n ++ "(\n"
  | .tableLine t => "  " ++ t ++ "\n"
  | .createTableClose => ");\n"
  | .fkConstraint t => t ++ "\n"
  | .indexConstraint t => t ++ "\n"
  | .uniqueConstraint t => t ++ "\n"
  | .extraLine t => t ++ "\n"

/-- Foreign-key constraint statements of one table, in field order (lines
100-102). -/
def fkConstraintsOf (t : DbTableEntry)
    (fdata : List (Field × String × ColumnType)) : List String :=
  fdata.filterMap (fun fd =>
    fd.2.2.fkey.map (fun fk =>
      "alter table " ++ t.name ++ " add constraint " ++ t.name ++ "_" ++ fd.2.1 ++
      "_fk foreign key (" ++ fd.2.1 ++ ") references " ++ fk.table ++
      "(" ++ fk.column ++ ");"))

/-- Index-creation statements of one table (lines 114-117). -/
def indexConstraintsOf (t : DbTableEntry) : List String :=
  (annTable t.ann).indexes.enum.map (fun p =>
    "create index " ++ t.name ++ "_" ++ Nat.repr (p.1 + 1) ++ "_idx on " ++
    t.name ++ "(" ++ String.intercalate ", " (p.2.map (findColName t.fields)) ++ ");")

/-- Uniqueness-constraint statements of one table (lines 118-121). -/
def uniqueConstraintsOf (t : DbTableEntry) : List String :=
  (annTable t.ann).uniquenessConstraints.enum.map (fun p =>
    "alter table " ++ t.name ++ " add constraint " ++ t.name ++ "_" ++
    Nat.repr (p.1 + 1) ++ "_con unique (" ++
    String.intercalate ", " (p.2.map (findColName t.fields)) ++ ");")

/-- Chunks of one `create table` block: blank separator, the open line, the
body lines, the closing `);`. -/
def tableChunks (profile : DbProfile) (t : DbTableEntry)
    (fdata : List (Field × String × ColumnType)) : List SqlChunk :=
  let lines := tableLines profile t fdata
  [SqlChunk.blankLine, SqlChunk.createTableOpen t.name]
  ++ lines.enum.map (fun p => SqlChunk.tableLine (lineText lines.length p.1 p.2))
  ++ [SqlChunk.createTableClose]

/-- Column derivation for every table in order; `none` as soon as any column
runs out of fuel. -/
def tableDataM (resolver : Resolver) (profile : DbProfile) (fuel : Nat) :
    List DbTableEntry →
    Option (List (DbTableEntry × List (Field × String × ColumnType)))
  | [] => some []
  | t :: ts =>
    match tableFieldData resolver profile fuel t.fields,
        tableDataM resolver profile fuel ts with
    | some fd, some rest => some ((t, fd) :: rest)
    | _, _ => none

/-- Insertion-ordered deduplication, modelling the JavaScript
`new Set(...)` iteration order used for the header module list. -/
def dedupFirst (l : List String) : List String :=
  l.foldl (fun acc x => if acc.contains x then acc else acc ++ [x]) []

/-- Header comment chunks (lines 72-75). -/
def headerChunksOf (dbTables : List DbTableEntry) : List SqlChunk :=
  [SqlChunk.headerLine
     ("-- Schema auto-generated from adl modules: " ++
      String.intercalate ", "
        (dedupFirst (dbTables.map (fun t => t.scopedDecl.moduleName)))),
   SqlChunk.headerLine "--",
   SqlChunk.headerLine "-- column comments show original ADL types"]

/-- Concatenated `create table` blocks of all tables, in list order. -/
def tableSectionOf (profile : DbProfile)
    (tdata : List (DbTableEntry × List (Field × String × ColumnType))) :
    List SqlChunk :=
  tdata.flatMap (fun p => tableChunks profile p.1 p.2)

/-- Constraint statements accumulated by the table loop: per table, its
foreign keys (field order), then its index creations, then its uniqueness
constraints; tables in list order. -/
def constraintChunksOf
    (tdata : List (DbTableEntry × List (Field × String × ColumnType))) :
    List SqlChunk :=
  tdata.flatMap (fun p =>
    (fkConstraintsOf p.1 p.2).map SqlChunk.fkConstraint
    ++ (indexConstraintsOf p.1).map SqlChunk.indexConstraint
    ++ (uniqueConstraintsOf p.1).map SqlChunk.uniqueConstraint)

/-- Trailing-section lines for an `n`-element `allExtraSql` array.  The
source loop is `for(const sql in allExtraSql)`, a JavaScript `for...in` over
an array, which iterates the array KEYS; so the written lines are the decimal
index strings `"0"`, `"1"`, ..., not the stored SQL strings. -/
def extraChunksOf (n : Nat) : List SqlChunk :=
  (List.range n).map (fun i => SqlChunk.extraLine (Nat.repr i))

/-- Whole-file generation (`generateSqlSchema`): header comments, one create
table block per sorted table, then the per-table constraint statements, then
the trailing section (see `extraChunksOf` for the `for...in` quirk). -/
def generateSqlSchema (resolver : Resolver) (decls : List ScopedDecl)
    (profile : DbProfile) (fuel : Nat) : Option (List SqlChunk) :=
  let dbTables := sortedDbTables decls
  match tableDataM resolver profile fuel dbTables with
  | none => none
  | some tdata =>
    let constraints := constraintChunksOf tdata
    let allExtraSql := dbTables.flatMap (fun t => (annTable t.ann).extraSql)
    some (headerChunksOf dbTables
      ++ tableSectionOf profile tdata
      ++ ((if constraints.isEmpty then [] else [SqlChunk.blankLine]) ++ constraints)
      ++ ((if allExtraSql.isEmpty then [] else [SqlChunk.blankLine])
          ++ extraChunksOf allExtraSql.length))

/-- Generated file text: concatenation of the rendered chunks. -/
def renderOutput (chunks : List SqlChunk) : String :=
  String.join (chunks.map SqlChunk.render)

/-! Claim-side predicates: these follow the wording of the specification
claims and are compared against the behaviour of the embedded code. -/

/-- Nullable-wrapper shape in the claims' wording: a `Nullable` decoded shape
or a `Reference` to `sys.types.Maybe`. -/
def isNullableWrapperShape : DecodedTypeExpr → Bool
  | .Nullable _ => true
  | .Reference sn _ => scopedNamesEqual sn MAYBE
  | _ => false

/-- Claim C3's wording of foreign-key detection: a `Reference` to
`common.db.DbKey` whose single type parameter is itself a `Reference` to a
declaration carrying the `DbTable` annotation. -/
def isDbKeyToTableMapped (resolver : Resolver) (te : TypeExpr) : Bool :=
  match decodeTypeExpr te with
  | .Reference sn ps =>
    scopedNamesEqual sn DB_KEY &&
    (match ps with
     | [p0] =>
       (match decodeTypeExpr p0 with
        | .Reference psn _ => (getAnnot (resolver psn).decl.annotations DB_TABLE).isSome
        | _ => false)
     | _ => false)
  | _ => false

/-- Phase number a chunk is assigned by claim C4's ordering (tables, then all
foreign keys, then all indexes, then all uniqueness constraints, then the
trailing section); chunks the claim does not order are unassigned. -/
def claimPhaseC4 : SqlChunk → Option Nat
  | .createTableOpen _ => some 0
  | .fkConstraint _ => some 1
  | .indexConstraint _ => some 2
  | .uniqueConstraint _ => some 3
  | .extraLine _ => some 4
  | _ => none

/-- Coarse phase actually respected by the emitter: create-table statements,
then all constraint statements of any kind, then the trailing section. -/
def emitPhase : SqlChunk → Option Nat
  | .createTableOpen _ => some 0
  | .fkConstraint _ => some 1
  | .indexConstraint _ => some 1
  | .uniqueConstraint _ => some 1
  | .extraLine _ => some 2
  | _ => none

/-- Trailing-section text of a chunk, when it is a trailing line. -/
def extraTextOf : SqlChunk → Option String
  | .extraLine t => some t
  | _ => none

/-- Table name of a chunk, when it opens a `create table` block. -/
def createNameOf : SqlChunk → Option String
  | .createTableOpen n => some n
  | _ => none

/-- Struct test on a declaration body, used to state claim C10. -/
def isStructDecl : DeclType → Bool
  | .struct_ _ _ => true
  | _ => false

/-- Primitive kinds carried by the two postgres profiles' tables. -/
def pgPrimKinds : List String :=
  ["String", "Bool", "Json", "Int8", "Int16", "Int32", "Int64",
   "Word8", "Word16", "Word32", "Word64", "Float", "Double"]

/-- Primitive kinds carried by the mssql profile's table (no `Json` row). -/
def mssqlPrimKinds : List String :=
  ["String", "Int8", "Int16", "Int32", "Int64",
   "Word8", "Word16", "Word32", "Word64", "Float", "Double", "Bool"]

/-! Concrete declaration graphs used by the witnesses, counterexamples and
code-bug demonstrations. -/

/-- Shorthand for the `String` primitive type expression. -/
def strTE : TypeExpr := .mk (.primitive "String") []

/-- Declaration of `common.db.DbKey`: `newtype DbKey<T> = String`. -/
def dbKeyDecl : ScopedDecl :=
  ⟨"common.db", ⟨"DbKey", .newtype_ ["T"] strTE, []⟩⟩

/-- Fallback declaration for scoped names outside the example graphs. -/
def dummyDecl : ScopedDecl :=
  ⟨"none", ⟨"None", .struct_ [] [], []⟩⟩

/-- Scoped name of the example table declaration `app.Person`. -/
def personSN : ScopedName := scopedName "app" "Person"

/-- Example table declaration `app.Person` carrying a `DbTable`
annotation. -/
def personDecl : ScopedDecl :=
  ⟨"app", ⟨"Person", .struct_ [] [], [(DB_TABLE, .table {})]⟩⟩

/-- Resolver of the C1 witness graph. -/
def c1res : Resolver := fun sn =>
  if sn = personSN then personDecl
  else if sn = DB_KEY then dbKeyDecl
  else dummyDecl

/-- Witness type expression for C1: `Nullable<DbKey<Person>>` — a nullable
wrapper around a foreign-key type. -/
def c1te : TypeExpr :=
  .mk (.primitive "Nullable") [.mk (.reference DB_KEY) [.mk (.reference personSN) []]]

/-- Column the C1 witness expects: nullable `text` with a foreign key to
`person(id)`. -/
def c1ct : ColumnType := ⟨"text", some ⟨"person", "id"⟩⟩

/-- Scoped name of a declaration with no annotations at all. -/
def plainSN : ScopedName := scopedName "app" "MyThing"

/-- Declaration `app.MyThing` carrying no `DbTable` annotation. -/
def plainDecl : ScopedDecl :=
  ⟨"app", ⟨"MyThing", .struct_ [] [], []⟩⟩

/-- Resolver of the C3 counterexample graph. -/
def c3res : Resolver := fun sn =>
  if sn = plainSN then plainDecl
  else if sn = DB_KEY then dbKeyDecl
  else dummyDecl

/-- Counterexample type expression for C3: `DbKey<MyThing>` where `MyThing`
carries no table annotation. -/
def c3te : TypeExpr :=
  .mk (.reference DB_KEY) [.mk (.reference plainSN) []]

/-- Scoped name of the C4 counterexample's first table. -/
def aSN : ScopedName := scopedName "app" "ATable"

/-- First C4 table: sorts first and declares an index. -/
def c4declA : ScopedDecl :=
  ⟨"app", ⟨"ATable", .struct_ [] [⟨"x", strTE, []⟩],
    [(DB_TABLE, .table {indexes := [["x"]]})]⟩⟩

/-- Second C4 table: sorts second and has a foreign-key column referencing
the first table. -/
def c4declB : ScopedDecl :=
  ⟨"app", ⟨"BTable", .struct_ []
    [⟨"owner", .mk (.reference DB_KEY) [.mk (.reference aSN) []], []⟩],
    [(DB_TABLE, .table {})]⟩⟩

/-- Resolver of the C4 counterexample graph. -/
def c4res : Resolver := fun sn =>
  if sn = aSN then c4declA
  else if sn = DB_KEY then dbKeyDecl
  else dummyDecl

/-- Declaration list of the C4 counterexample. -/
def c4decls : List ScopedDecl := [c4declA, c4declB]

/-- C5 failing input: a table whose `DbTable` annotation carries one raw
trailing SQL string. -/
def c5decl : ScopedDecl :=
  ⟨"app", ⟨"Foo", .struct_ [] [⟨"x", strTE, []⟩],
    [(DB_TABLE, .table {extraSql := ["select 1;"]})]⟩⟩

/-- Resolver of the C5 graph (no references are resolved). -/
def c5res : Resolver := fun _ => dummyDecl

/-- Scoped name of the C6 cyclic alias. -/
def cycSN : ScopedName := scopedName "app" "Cyc"

/-- Ill-formed cyclic alias `type Cyc = Cyc`. -/
def cycDecl : ScopedDecl :=
  ⟨"app", ⟨"Cyc", .type_ [] (.mk (.reference cycSN) []), []⟩⟩

/-- Resolver of the C6 cyclic graph. -/
def cycRes : Resolver := fun sn =>
  if sn = cycSN then cycDecl else dummyDecl

/-- Reference to the cyclic alias. -/
def cycTE : TypeExpr := .mk (.reference cycSN) []

/-- First C8 counterexample table: explicit table name `t`. -/
def c8declA : ScopedDecl :=
  ⟨"app", ⟨"FooA", .struct_ [] [], [(DB_TABLE, .table {tableName := some "t"})]⟩⟩

/-- Second C8 counterexample table: the same explicit table name `t`. -/
def c8declB : ScopedDecl :=
  ⟨"app", ⟨"FooB", .struct_ [] [], [(DB_TABLE, .table {tableName := some "t"})]⟩⟩

/-- Declaration list of the C8 counterexample: two distinct declarations
deriving the same table name. -/
def c8decls : List ScopedDecl := [c8declA, c8declB]

/-- Resolver of the C8 counterexample graph (no references occur). -/
def c8res : Resolver := fun _ => dummyDecl

/-- Plain struct table used by the C10 witness. -/
def w10decl : ScopedDecl :=
  ⟨"app", ⟨"Bar", .struct_ [] [⟨"x", strTE, []⟩], [(DB_TABLE, .table {})]⟩⟩

/-- Union declaration carrying a `DbTable` annotation: claim C10 says it is
ignored. -/
def w10union : ScopedDecl :=
  ⟨"app", ⟨"UnionThing", .union_ [] [⟨"a", strTE, []⟩, ⟨"b", strTE, []⟩],
    [(DB_TABLE, .table {})]⟩⟩

/-- Resolver of the C10 witness graph. -/
def w10res : Resolver := fun _ => dummyDecl

/-! Theorems.  Each claim of the specification is settled by exactly one
theorem below (plus a witness where the theorem carries hypotheses).
Auxiliary lemmas shared by the claim theorems come first. -/

/-- Unfolding of `getColumnType` with the nullable test expressed through
the claim-side predicate `isNullableWrapperShape`. -/
theorem getColumnType_eq (resolver : Resolver) (profile : DbProfile)
    (fuel : Nat) (te : TypeExpr) :
    getColumnType resolver profile fuel te =
      if isNullableWrapperShape (decodeTypeExpr te) then
        match te.parameters with
        | p0 :: _ =>
          (getColumnType1 resolver profile fuel p0).map
            (fun s => ⟨s, getForeignKeyRef resolver p0⟩)
        | [] => none
      else
        (getColumnType1 resolver profile fuel te).map
          (fun s => ⟨s ++ " not null", getForeignKeyRef resolver te⟩) := by
  unfold getColumnType isNullableWrapperShape
  cases decodeTypeExpr te <;> rfl

/-- Claim C1: a nullable-wrapped field type (dedicated `Nullable` wrapper or
`Maybe` reference) maps its single inner type parameter as the base type with
no `" not null"` qualifier and with the foreign key computed from the inner
parameter, while every other type maps itself with `" not null"` appended and
the foreign key computed from the expression itself; nullability and
foreign-key detection are independent. -/
theorem c1_nullable_and_fkey_independent (resolver : Resolver) (profile : DbProfile)
    (fuel : Nat) (te : TypeExpr) (ct : ColumnType)
    (h : getColumnType resolver profile fuel te = some ct) :
    (isNullableWrapperShape (decodeTypeExpr te) = true →
      ∃ p0, te.parameters.head? = some p0 ∧
        getColumnType1 resolver profile fuel p0 = some ct.sqltype ∧
        ct.fkey = getForeignKeyRef resolver p0)
    ∧ (isNullableWrapperShape (decodeTypeExpr te) = false →
      ∃ s, getColumnType1 resolver profile fuel te = some s ∧
        ct.sqltype = s ++ " not null" ∧
        ct.fkey = getForeignKeyRef resolver te) := by
  rw [getColumnType_eq] at h
  by_cases hn : isNullableWrapperShape (decodeTypeExpr te) = true
  · rw [if_pos hn] at h
    refine ⟨fun _ => ?_, fun habs => absurd hn (by rw [habs]; exact Bool.false_ne_true)⟩
    cases hp : te.parameters with
    | nil => rw [hp] at h; cases h
    | cons p0 rest =>
      rw [hp] at h
      rcases Option.map_eq_some'.mp h with ⟨s, hs, hct⟩
      subst hct
      exact ⟨p0, by simp [hp], hs, rfl⟩
  · rw [if_neg hn] at h
    refine ⟨fun habs => absurd habs hn, fun _ => ?_⟩
    rcases Option.map_eq_some'.mp h with ⟨s, hs, hct⟩
    subst hct
    exact ⟨s, hs, rfl, rfl⟩

/-- Witness for C1 at `Nullable<DbKey<Person>>`: the derived column is
nullable (`text`, not `text not null`) and still carries the foreign key
`person(id)` — both axes at once. -/
theorem c1_nullable_and_fkey_independent_witness :
    getColumnType c1res postgresDbProfile 5 c1te = some c1ct ∧
    ((isNullableWrapperShape (decodeTypeExpr c1te) = true →
      ∃ p0, c1te.parameters.head? = some p0 ∧
        getColumnType1 c1res postgresDbProfile 5 p0 = some c1ct.sqltype ∧
        c1ct.fkey = getForeignKeyRef c1res p0)
    ∧ (isNullableWrapperShape (decodeTypeExpr c1te) = false →
      ∃ s, getColumnType1 c1res postgresDbProfile 5 c1te = some s ∧
        c1ct.sqltype = s ++ " not null" ∧
        c1ct.fkey = getForeignKeyRef c1res c1te)) :=
  ⟨rfl, c1_nullable_and_fkey_independent c1res postgresDbProfile 5 c1te c1ct rfl⟩

/-- Claim C2: wrapping an inner type in the dedicated `Nullable` wrapper and
wrapping it in a `sys.types.Maybe` reference produce identical column
specifications. -/
theorem c2_maybe_nullable_uniform (resolver : Resolver) (profile : DbProfile)
    (fuel : Nat) (t : TypeExpr) :
    getColumnType resolver profile fuel (.mk (.primitive "Nullable") [t]) =
    getColumnType resolver profile fuel (.mk (.reference MAYBE) [t]) := rfl

/-- Claim C3 (counterexample): `getForeignKeyRef` returns a target for
`DbKey<MyThing>` although `MyThing` carries no `DbTable` annotation, so
"returns a target iff ... a declaration carrying the table-mapping
annotation" is false on this graph. -/
theorem c3_fkey_without_table_ann :
    ¬ (∀ te, (getForeignKeyRef c3res te).isSome = isDbKeyToTableMapped c3res te) :=
  fun h => absurd (h c3te) (by decide)

/-- Claim C3 (amended): `getForeignKeyRef` returns a target iff the
expression decodes to a `Reference` to `common.db.DbKey` whose first type
parameter decodes to a `Reference` to some declaration — annotated or not —
and the target is that declaration's derived table name with column
`"id"`. -/
theorem c3_fkey_characterization (resolver : Resolver) (te : TypeExpr) (fk : FKeyRef) :
    getForeignKeyRef resolver te = some fk ↔
    ∃ p0 rest psn pps,
      decodeTypeExpr te = .Reference DB_KEY (p0 :: rest) ∧
      decodeTypeExpr p0 = .Reference psn pps ∧
      fk = ⟨getTableName (resolver psn), "id"⟩ := by
  unfold getForeignKeyRef
  cases hd : decodeTypeExpr te with
  | Primitive k => simp [hd]
  | Nullable inner => simp [hd]
  | Reference sn ps =>
    by_cases hsn : sn = DB_KEY
    · subst hsn
      cases ps with
      | nil => simp [hd, scopedNamesEqual]
      | cons p0 rest =>
        cases hp : decodeTypeExpr p0 with
        | Primitive k => simp [hd, hp, scopedNamesEqual]
        | Nullable inner => simp [hd, hp, scopedNamesEqual]
        | Reference psn pps =>
          simp only [scopedNamesEqual, beq_self_eq_true, if_true, hp,
            Option.some_inj, hd, DecodedTypeExpr.Reference.injEq,
            List.cons.injEq, true_and]
          constructor
          · intro hfk
            exact ⟨p0, rest, psn, pps, ⟨rfl, rfl⟩, hp, hfk.symm⟩
          · rintro ⟨p0', rest', psn', pps', ⟨hp0, -⟩, hdec, hfk⟩
            rw [← hp0] at hdec
            rw [hdec] at hp
            cases hp
            exact hfk.symm
    · simp [hd, scopedNamesEqual, hsn]

/-- Claim C5 (code bug): the trailing-SQL loop `for(const sql in
allExtraSql)` iterates the array keys, so a table whose annotation carries
the raw SQL string `"select 1;"` produces the trailing line `"0"` instead of
the string itself. -/
theorem c5_extrasql_indices_bug :
    ((generateSqlSchema c5res [c5decl] postgresDbProfile 5).getD []).filterMap extraTextOf
      = ["0"]
    ∧ (dbTablesOf [c5decl]).flatMap (fun t => (annTable t.ann).extraSql)
      = ["select 1;"]
    ∧ (generateSqlSchema c5res [c5decl] postgresDbProfile 5).isSome = true :=
  ⟨rfl, rfl, rfl⟩

/-- Claim C6 (code bug): on the ill-formed cyclic alias `type Cyc = Cyc` the
base-type reduction of `getColumnType1` never reaches a terminal case, for
every recursion depth — the source has no visited set and simply recurses,
so the cycle is not detected and reported. -/
theorem c6_cyclic_alias_never_terminates (fuel : Nat) :
    getColumnType1 cycRes postgresDbProfile fuel cycTE = none := by
  induction fuel with
  | zero => rfl
  | succ n ih => exact ih

/-- Claim C7: a primitive kind absent from the selected profile's primitive
table maps to that profile's opaque default (`json`, `jsonb`,
`nvarchar(max)` respectively); the lookup is total, so no error is ever
raised. -/
theorem c7_unmapped_primitive_defaults (p : String) :
    (p ∉ pgPrimKinds →
      postgresDbProfile.primColumnType p = "json"
      ∧ postgres2DbProfile.primColumnType p = "jsonb")
    ∧ (p ∉ mssqlPrimKinds →
      mssql2DbProfile.primColumnType p = "nvarchar(max)") := by
  constructor
  · intro hp
    constructor
    · simp only [postgresDbProfile]
      split <;> simp_all [pgPrimKinds]
    · simp only [postgres2DbProfile]
      split <;> simp_all [pgPrimKinds]
  · intro hp
    simp only [mssql2DbProfile]
    split <;> simp_all [mssqlPrimKinds]

/-- Witness for C7 at the unmapped primitive kind `Void`. -/
theorem c7_unmapped_primitive_defaults_witness :
    ("Void" ∉ pgPrimKinds ∧ "Void" ∉ mssqlPrimKinds)
    ∧ (postgresDbProfile.primColumnType "Void" = "json"
       ∧ postgres2DbProfile.primColumnType "Void" = "jsonb")
    ∧ mssql2DbProfile.primColumnType "Void" = "nvarchar(max)" :=
  ⟨⟨by decide, by decide⟩,
   (c7_unmapped_primitive_defaults "Void").1 (by decide),
   (c7_unmapped_primitive_defaults "Void").2 (by decide)⟩

/-- Claim C9: a reference to a well-known temporal declaration maps to the
fixed spelling regardless of the declaration's content (the resolver is
arbitrary): `common.Instant` to `timestamp`, `common.LocalDate` to `date`,
and `common.LocalDateTime` to the local-timestamp spelling, which in this
generator is also `timestamp`. -/
theorem c9_temporal_fixed_spellings (resolver : Resolver) (profile : DbProfile)
    (fuel : Nat) (ps1 ps2 ps3 : List TypeExpr) :
    getColumnType1 resolver profile (fuel + 1) (.mk (.reference INSTANT) ps1)
      = some "timestamp"
    ∧ getColumnType1 resolver profile (fuel + 1) (.mk (.reference LOCAL_DATE) ps2)
      = some "date"
    ∧ getColumnType1 resolver profile (fuel + 1) (.mk (.reference LOCAL_DATETIME) ps3)
      = some "timestamp" :=
  ⟨rfl, rfl, rfl⟩

/-- Claim C10: a declaration that is not a struct, or carries no `DbTable`
annotation, contributes nothing to the generated schema: removing it from
the declaration list leaves the output unchanged. -/
theorem c10_only_annotated_structs (resolver : Resolver) (profile : DbProfile)
    (fuel : Nat) (d1 d2 : List ScopedDecl) (sd : ScopedDecl)
    (h : isStructDecl sd.decl.type_ = false
         ∨ getAnnot sd.decl.annotations DB_TABLE = none) :
    generateSqlSchema resolver (d1 ++ sd :: d2) profile fuel =
    generateSqlSchema resolver (d1 ++ d2) profile fuel := by
  have hdb : dbTablesOf (d1 ++ sd :: d2) = dbTablesOf (d1 ++ d2) := by
    unfold dbTablesOf
    simp only [List.filterMap_append, List.filterMap_cons]
    rcases h with h | h
    · cases htype : sd.decl.type_ with
      | struct_ tps fields => simp [isStructDecl, htype] at h
      | union_ tps fields => simp [htype]
      | newtype_ tps te => simp [htype]
      | type_ tps te => simp [htype]
    · cases htype : sd.decl.type_ with
      | struct_ tps fields => simp [htype, h]
      | union_ tps fields => simp [htype]
      | newtype_ tps te => simp [htype]
      | type_ tps te => simp [htype]
  have hsorted : sortedDbTables (d1 ++ sd :: d2) = sortedDbTables (d1 ++ d2) := by
    unfold sortedDbTables
    rw [hdb]
  unfold generateSqlSchema
  rw [hsorted]

/-- Witness for C10: inserting a `DbTable`-annotated union declaration into
a one-table graph leaves the generated output unchanged. -/
theorem c10_only_annotated_structs_witness :
    isStructDecl w10union.decl.type_ = false ∧
    generateSqlSchema w10res [w10decl, w10union] postgresDbProfile 5 =
    generateSqlSchema w10res [w10decl] postgresDbProfile 5 :=
  ⟨rfl,
   c10_only_annotated_structs w10res postgresDbProfile 5 [w10decl] [] w10union
     (Or.inl rfl)⟩

/-! Ordinal-comparison lemmas for the table sort, and structural lemmas
about the sections of the generated chunk list.  They support the theorems
for claims C4 and C8. -/

/-- Strict ordinal comparison is asymmetric. -/
theorem charsLt_asymm : ∀ {a b : List Char}, charsLt a b = true → charsLt b a = false := by
  intro a
  induction a with
  | nil =>
    intro b h
    cases b with
    | nil => cases h
    | cons bh bt => rfl
  | cons ah as_ ih =>
    intro b h
    cases b with
    | nil => cases h
    | cons bh bt =>
      by_cases h1 : ah < bh
      · have h2 : ¬ bh < ah := lt_asymm h1
        simp [charsLt, h1, h2]
      · by_cases h2 : bh < ah
        · simp [charsLt, h1, h2] at h
        · have htail : charsLt as_ bt = true := by simpa [charsLt, h1, h2] using h
          simp [charsLt, h1, h2, ih htail]

/-- Linearity of the ordinal comparison: anything strictly below `a` is
strictly below `b` or has `b` strictly below `a`. -/
theorem charsLt_chain : ∀ {c a : List Char}, charsLt c a = true →
    ∀ b : List Char, charsLt c b = true ∨ charsLt b a = true := by
  intro c
  induction c with
  | nil =>
    intro a h b
    cases a with
    | nil => cases h
    | cons ah as_ =>
      cases b with
      | nil => right; rfl
      | cons bh bt => left; rfl
  | cons ch ct ih =>
    intro a h b
    cases a with
    | nil => cases h
    | cons ah as_ =>
      cases b with
      | nil => right; rfl
      | cons bh bt =>
        by_cases h2 : ch < bh
        · left; simp [charsLt, h2]
        by_cases h3 : bh < ch
        · right
          by_cases h1 : ch < ah
          · simp [charsLt, lt_trans h3 h1]
          · by_cases h1' : ah < ch
            · simp [charsLt, h1, h1'] at h
            · have heq : ch = ah := le_antisymm (le_of_not_lt h1') (le_of_not_lt h1)
              simp [charsLt, heq ▸ h3]
        have heqb : bh = ch := le_antisymm (le_of_not_lt h2) (le_of_not_lt h3)
        subst heqb
        by_cases h1 : bh < ah
        · right; simp [charsLt, h1]
        by_cases h1' : ah < bh
        · simp [charsLt, h1, h1'] at h
        have htail : charsLt ct as_ = true := by simpa [charsLt, h1, h1'] using h
        rcases ih htail bt with hl | hl
        · left; simp [charsLt, h2, h3, hl]
        · right; simp [charsLt, h1, h1', hl]

/-- Ordinal comparison is connex: mutually not-less lists are equal. -/
theorem charsLt_eq_of_not : ∀ {a b : List Char},
    charsLt a b = false → charsLt b a = false → a = b := by
  intro a
  induction a with
  | nil =>
    intro b h1 h2
    cases b with
    | nil => rfl
    | cons bh bt => cases h1
  | cons ah as_ ih =>
    intro b h1 h2
    cases b with
    | nil => cases h2
    | cons bh bt =>
      by_cases hab : ah < bh
      · simp [charsLt, hab] at h1
      by_cases hba : bh < ah
      · simp [charsLt, hba] at h2
      have he : ah = bh := le_antisymm (le_of_not_lt hba) (le_of_not_lt hab)
      subst he
      have t1 : charsLt as_ bt = false := by simpa [charsLt, hab, hba] using h1
      have t2 : charsLt bt as_ = false := by simpa [charsLt, hab, hba] using h2
      rw [ih t1 t2]

instance : IsTotal DbTableEntry tableOrd :=
  ⟨by
    intro a b
    unfold tableOrd strLtB
    cases hv : charsLt a.name.data b.name.data with
    | false => exact Or.inr rfl
    | true => exact Or.inl (charsLt_asymm hv)⟩

instance : IsTrans DbTableEntry tableOrd :=
  ⟨by
    intro a b c h1 h2
    unfold tableOrd strLtB at h1 h2 ⊢
    cases hv : charsLt c.name.data a.name.data with
    | false => rfl
    | true =>
      rcases charsLt_chain hv b.name.data with hx | hx
      · rw [h2] at hx; cases hx
      · rw [h1] at hx; cases hx⟩

/-- Lists whose members are all one value are trivially `≤`-pairwise. -/
theorem pairwise_le_of_all_eq {l : List Nat} (c : Nat) (h : ∀ x ∈ l, x = c) :
    l.Pairwise (· ≤ ·) := by
  induction l with
  | nil => exact List.Pairwise.nil
  | cons a t ih =>
    refine List.Pairwise.cons (fun b hb => ?_)
      (ih fun x hx => h x (List.mem_cons_of_mem _ hx))
    rw [h a (List.mem_cons_self a t), h b (List.mem_cons_of_mem a hb)]

/-- Conjunction of two pairwise facts on the same list. -/
theorem pairwise_conj {α : Type} {R S : α → α → Prop} :
    ∀ {l : List α}, l.Pairwise R → l.Pairwise S →
      l.Pairwise (fun a b => R a b ∧ S a b) := by
  intro l h1 h2
  induction h1 with
  | nil => exact List.Pairwise.nil
  | cons hr _ ih =>
    cases h2 with
    | cons hs ht => exact List.Pairwise.cons (fun b hb => ⟨hr b hb, hs b hb⟩) (ih ht)

/-- Names extracted from one table's chunk block: exactly its table name. -/
theorem tableChunks_names (profile : DbProfile) (t : DbTableEntry)
    (fd : List (Field × String × ColumnType)) :
    (tableChunks profile t fd).filterMap createNameOf = [t.name] := by
  simp [tableChunks, List.filterMap_append, List.filterMap_map, createNameOf,
    Function.comp]

/-- Phases extracted from one table's chunk block: exactly one `0`. -/
theorem tableChunks_phases (profile : DbProfile) (t : DbTableEntry)
    (fd : List (Field × String × ColumnType)) :
    (tableChunks profile t fd).filterMap emitPhase = [0] := by
  simp [tableChunks, List.filterMap_append, List.filterMap_map, emitPhase,
    Function.comp]

/-- Names extracted from the whole table section, in table order. -/
theorem tableSection_names (profile : DbProfile) :
    ∀ tdata, (tableSectionOf profile tdata).filterMap createNameOf =
      tdata.map (fun p => p.1.name) := by
  intro tdata
  induction tdata with
  | nil => rfl
  | cons p ps ih =>
    simp only [tableSectionOf, List.flatMap_cons, List.filterMap_append] at ih ⊢
    rw [tableChunks_names, ih]
    rfl

/-- Phases extracted from the whole table section: one `0` per table. -/
theorem tableSection_phases (profile : DbProfile) :
    ∀ tdata, (tableSectionOf profile tdata).filterMap emitPhase =
      tdata.map (fun _ => 0) := by
  intro tdata
  induction tdata with
  | nil => rfl
  | cons p ps ih =>
    simp only [tableSectionOf, List.flatMap_cons, List.filterMap_append] at ih ⊢
    rw [tableChunks_phases, ih]
    rfl

/-- Every chunk of the constraint section is a constraint constructor. -/
theorem constraint_chunk_shape {tdata} {c : SqlChunk}
    (hc : c ∈ constraintChunksOf tdata) :
    (∃ s, c = SqlChunk.fkConstraint s) ∨ (∃ s, c = SqlChunk.indexConstraint s)
    ∨ (∃ s, c = SqlChunk.uniqueConstraint s) := by
  rcases List.mem_flatMap.mp hc with ⟨p, -, hmem⟩
  rcases List.mem_append.mp hmem with hmem | hmem
  · rcases List.mem_append.mp hmem with hmem | hmem
    · rcases List.mem_map.mp hmem with ⟨s, -, rfl⟩
      exact Or.inl ⟨s, rfl⟩
    · rcases List.mem_map.mp hmem with ⟨s, -, rfl⟩
      exact Or.inr (Or.inl ⟨s, rfl⟩)
  · rcases List.mem_map.mp hmem with ⟨s, -, rfl⟩
    exact Or.inr (Or.inr ⟨s, rfl⟩)

/-- The constraint section contributes no table names. -/
theorem constraint_names (tdata) :
    (constraintChunksOf tdata).filterMap createNameOf = [] :=
  List.filterMap_eq_nil_iff.mpr (fun c hc => by
    rcases constraint_chunk_shape hc with ⟨s, rfl⟩ | ⟨s, rfl⟩ | ⟨s, rfl⟩ <;> rfl)

/-- Every phase extracted from the constraint section is `1`. -/
theorem constraint_phase_mem {tdata} {x : Nat}
    (hx : x ∈ (constraintChunksOf tdata).filterMap emitPhase) : x = 1 := by
  rcases List.mem_filterMap.mp hx with ⟨c, hc, hfc⟩
  rcases constraint_chunk_shape hc with ⟨s, rfl⟩ | ⟨s, rfl⟩ | ⟨s, rfl⟩ <;>
    exact (Option.some.inj hfc).symm

/-- The trailing section contributes no table names. -/
theorem extra_names (n : Nat) :
    (extraChunksOf n).filterMap createNameOf = [] := by
  unfold extraChunksOf
  rw [List.filterMap_map]
  exact List.filterMap_eq_nil_iff.mpr (fun a _ => rfl)

/-- Every phase extracted from the trailing section is `2`. -/
theorem extra_phase_mem {n : Nat} {x : Nat}
    (hx : x ∈ (extraChunksOf n).filterMap emitPhase) : x = 2 := by
  rcases List.mem_filterMap.mp hx with ⟨c, hc, hfc⟩
  rcases List.mem_map.mp hc with ⟨i, -, rfl⟩
  exact (Option.some.inj hfc).symm

/-- The header contributes no table names. -/
theorem header_names (dbT : List DbTableEntry) :
    (headerChunksOf dbT).filterMap createNameOf = [] := rfl

/-- The header contributes no phases. -/
theorem header_phases (dbT : List DbTableEntry) :
    (headerChunksOf dbT).filterMap emitPhase = [] := rfl

/-- A conditional blank separator contributes nothing to any extraction that
ignores blank lines. -/
theorem blankIf_filterMap {β : Type} (f : SqlChunk → Option β)
    (hb : f SqlChunk.blankLine = none) (c : Prop) [Decidable c] :
    (if c then ([] : List SqlChunk) else [SqlChunk.blankLine]).filterMap f = [] := by
  split
  · rfl
  · simp [hb]

/-- The per-table data computed by `tableDataM` pairs each input table, in
order, with its column data. -/
theorem tableDataM_fst (resolver : Resolver) (profile : DbProfile) (fuel : Nat) :
    ∀ (l : List DbTableEntry) td, tableDataM resolver profile fuel l = some td →
      td.map Prod.fst = l := by
  intro l
  induction l with
  | nil =>
    intro td h
    rw [← Option.some.inj h]
    rfl
  | cons t ts ih =>
    intro td h
    simp only [tableDataM] at h
    cases h1 : tableFieldData resolver profile fuel t.fields with
    | none => rw [h1] at h; exact Option.noConfusion h
    | some fd =>
      rw [h1] at h
      cases h2 : tableDataM resolver profile fuel ts with
      | none => rw [h2] at h; exact Option.noConfusion h
      | some rest =>
        rw [h2] at h
        rw [← Option.some.inj h]
        simp [ih rest h2]

/-- Table names of a generated output, in emission order: they are exactly
the names of the sorted table list. -/
theorem generate_names (resolver : Resolver) (decls : List ScopedDecl)
    (profile : DbProfile) (fuel : Nat) (tdata)
    (htd : tableDataM resolver profile fuel (sortedDbTables decls) = some tdata) :
    ((generateSqlSchema resolver decls profile fuel).getD []).filterMap createNameOf
      = (sortedDbTables decls).map (fun t => t.name) := by
  simp only [generateSqlSchema, htd, Option.getD_some, List.filterMap_append]
  rw [header_names, tableSection_names, constraint_names, extra_names,
    blankIf_filterMap createNameOf rfl, blankIf_filterMap createNameOf rfl]
  simp only [List.append_nil, List.nil_append]
  rw [← tableDataM_fst resolver profile fuel _ tdata htd, List.map_map]
  rfl

/-- Claim C4 (counterexample): with a first table declaring an index and a
second table carrying a foreign key, the emitted constraint statements are
grouped per table, so an index-creation statement precedes a foreign-key
statement — the claimed global phase order (all foreign keys before all
indexes) is violated. -/
theorem c4_fk_not_globally_before_indexes :
    (generateSqlSchema c4res c4decls postgresDbProfile 5).isSome = true
    ∧ ¬ (List.filterMap claimPhaseC4
          ((generateSqlSchema c4res c4decls postgresDbProfile 5).getD [])).Pairwise
        (· ≤ ·) :=
  ⟨rfl, by decide⟩

/-- Claim C4 (amended): every create-table statement precedes every
constraint statement (foreign-key, index-creation or uniqueness), and every
constraint statement precedes every trailing-section line; within the
constraint block the statements are grouped per table (each table's foreign
keys, then its indexes, then its uniqueness constraints) rather than phased
globally. -/
theorem c4_constraints_after_tables (resolver : Resolver) (decls : List ScopedDecl)
    (profile : DbProfile) (fuel : Nat) :
    (List.filterMap emitPhase
      ((generateSqlSchema resolver decls profile fuel).getD [])).Pairwise (· ≤ ·) := by
  cases htd : tableDataM resolver profile fuel (sortedDbTables decls) with
  | none =>
    have hnone : generateSqlSchema resolver decls profile fuel = none := by
      simp [generateSqlSchema, htd]
    rw [hnone]
    exact List.Pairwise.nil
  | some tdata =>
    simp only [generateSqlSchema, htd, Option.getD_some, List.filterMap_append]
    rw [header_phases, tableSection_phases,
      blankIf_filterMap emitPhase rfl, blankIf_filterMap emitPhase rfl]
    simp only [List.nil_append]
    rw [List.pairwise_append]
    refine ⟨?_, pairwise_le_of_all_eq 2 (fun x hx => extra_phase_mem hx),
      fun a ha b hb => ?_⟩
    · rw [List.pairwise_append]
      refine ⟨pairwise_le_of_all_eq 0 (fun x hx => ?_),
        pairwise_le_of_all_eq 1 (fun x hx => constraint_phase_mem hx),
        fun a ha b hb => ?_⟩
      · rcases List.mem_map.mp hx with ⟨p, -, heq⟩
        exact heq.symm
      · rcases List.mem_map.mp ha with ⟨p, -, heq⟩
        rw [← heq]
        exact Nat.zero_le b
    · rw [extra_phase_mem hb]
      rcases List.mem_append.mp ha with ha | ha
      · rcases List.mem_map.mp ha with ⟨p, -, heq⟩
        rw [← heq]
        exact Nat.zero_le 2
      · rw [constraint_phase_mem ha]
        exact one_le_two

/-- Claim C8 (counterexample): two declarations with the same explicit
`tableName` produce two `create table t` statements, so the emitted names are
not strictly ascending. -/
theorem c8_duplicate_names_not_strict :
    (generateSqlSchema c8res c8decls postgresDbProfile 5).isSome = true
    ∧ ¬ (List.filterMap createNameOf
          ((generateSqlSchema c8res c8decls postgresDbProfile 5).getD [])).Pairwise
        (fun a b => strLtB a b = true) :=
  ⟨rfl, by decide⟩

/-- Claim C8 (amended): the create-table statements appear in non-decreasing
order of derived table name (ordinal comparison), independent of declaration
order; when the derived table names are pairwise distinct the order is
strictly ascending. -/
theorem c8_tables_sorted_by_name (resolver : Resolver) (decls : List ScopedDecl)
    (profile : DbProfile) (fuel : Nat) :
    ((List.filterMap createNameOf
        ((generateSqlSchema resolver decls profile fuel).getD [])).Pairwise
      (fun a b => strLtB b a = false))
    ∧ (((dbTablesOf decls).map (fun t => t.name)).Nodup →
        (List.filterMap createNameOf
          ((generateSqlSchema resolver decls profile fuel).getD [])).Pairwise
        (fun a b => strLtB a b = true)) := by
  cases htd : tableDataM resolver profile fuel (sortedDbTables decls) with
  | none =>
    have hnone : generateSqlSchema resolver decls profile fuel = none := by
      simp [generateSqlSchema, htd]
    rw [hnone]
    exact ⟨List.Pairwise.nil, fun _ => List.Pairwise.nil⟩
  | some tdata =>
    rw [generate_names resolver decls profile fuel tdata htd]
    have hsorted : (sortedDbTables decls).Pairwise tableOrd :=
      List.sorted_insertionSort tableOrd (dbTablesOf decls)
    have h1 : ((sortedDbTables decls).map (fun t => t.name)).Pairwise
        (fun a b => strLtB b a = false) :=
      List.pairwise_map.mpr hsorted
    refine ⟨h1, fun hnodup => ?_⟩
    have hperm : List.Perm (sortedDbTables decls) (dbTablesOf decls) :=
      List.perm_insertionSort tableOrd (dbTablesOf decls)
    have hnodupS : ((sortedDbTables decls).map (fun t => t.name)).Nodup :=
      ((hperm.map (fun t => t.name)).nodup_iff).mpr hnodup
    refine (pairwise_conj h1 hnodupS).imp ?_
    intro a b hab
    rcases hab with ⟨hle, hne⟩
    cases hv : strLtB a b with
    | true => rfl
    | false =>
      exact absurd (show a = b from congrArg String.mk (charsLt_eq_of_not hv hle)) hne

/-- Witness for C8 (amended) on the two-table graph with distinct derived
names `a_table`, `b_table`: the emitted names are strictly ascending. -/
theorem c8_tables_sorted_by_name_witness :
    ((dbTablesOf c4decls).map (fun t => t.name)).Nodup
    ∧ (List.filterMap createNameOf
        ((generateSqlSchema c4res c4decls postgresDbProfile 5).getD [])).Pairwise
      (fun a b => strLtB a b = true) :=
  ⟨by decide,
   (c8_tables_sorted_by_name c4res c4decls postgresDbProfile 5).2 (by decide)⟩

end SqlSchema
